import Mathlib

/-!
Verification of the ORM-Rust object-relational persistence layer.

The definitions below are a shallow embedding of the repository's source:
`src/data.rs` (scalar values), `src/object.rs` (schema metadata and SQL text
generation), `src/error.rs` (error taxonomy and engine-error translation),
`src/storage.rs` (storage-transaction operations over the SQL engine) and
`src/transaction.rs` (the unit of work / identity map and record handles).
Pure Rust functions become Lean functions; the stateful unit of work becomes
explicit state passing over a `TxnState` with an explicit heap for the
`Rc`-shared cells; panics become an explicit `panic` outcome; storage calls
are logged in a trace so that call-counting claims can be stated.
-/

namespace Orm

/-! ## Data model (`src/data.rs`) -/

/-- `DataType` from `src/data.rs`: closed enumeration of column scalar kinds. -/
inductive DataType where
  | string
  | bytes
  | int64
  | float64
  | bool
deriving DecidableEq, Repr

/-- `Value` from `src/data.rs`: one scalar tagged by `DataType`.  The Rust
`Cow` borrowing distinction has no observable content and is dropped; byte
vectors become `List Nat`. -/
inductive Value where
  | str (s : String)
  | bytes (b : List Nat)
  | int64 (i : Int)
  | float64 (f : Float)
  | bool (b : Bool)

/-- The `DataType` tag of a `Value`. -/
def Value.tag : Value → DataType
  | .str _ => .string
  | .bytes _ => .bytes
  | .int64 _ => .int64
  | .float64 _ => .float64
  | .bool _ => .bool

/-- `Row` from `src/storage.rs`: an ordered sequence of values. -/
abbrev Row := List Value

/-- `ObjectId` from `src/data.rs`: a 64-bit row identifier.  No arithmetic is
performed on identifiers anywhere in the code, so `Int` is a faithful model. -/
abbrev ObjectId := Int

/-! ## Schema metadata and SQL text (`src/object.rs`) -/

/-- `Column` from `src/object.rs`: column name, attribute (field) name — which
is also the text rendered as the column declaration by `create_text` — and the
column's `DataType`. -/
structure Column where
  column_name : String
  attr_name : String
  typ : DataType

/-- `Schema` from `src/object.rs`. -/
structure Schema where
  table_name : String
  type_name : String
  columns : List Column

/-- `Schema::create_text` from `src/object.rs`: builds
`CREATE TABLE <t> (id INTEGER PRIMARY KEY AUTOINCREMENT` then for each column
appends `, <column_name> <attr_name>` and finally `)` — mirroring the Rust
`for` loop over `push_str`. -/
def Schema.create_text (s : Schema) : String :=
  let base := "CREATE TABLE " ++ s.table_name ++ " (id INTEGER PRIMARY KEY AUTOINCREMENT"
  let body := s.columns.foldl (fun acc c => acc ++ ", " ++ c.column_name ++ " " ++ c.attr_name) base
  body ++ ")"

/-! ## Error taxonomy (`src/error.rs`) -/

/-- `Error` from `src/error.rs`: the five error kinds of the taxonomy.  The
payload of `storage` is the underlying opaque engine error, kept as a string
description. -/
inductive OrmError where
  | notFound (object_id : ObjectId) (type_name : String)
  | unexpectedType (type_name attr_name table_name column_name : String)
      (expected : DataType) (got : String)
  | missingColumn (type_name attr_name table_name column_name : String)
  | lockConflict
  | storage (description : String)
deriving DecidableEq, Repr

/-- Engine (rusqlite) result codes, as far as the translation layer inspects
them: only `DatabaseBusy` is distinguished. -/
inductive EngineCode where
  | databaseBusy
  | otherCode (n : Nat)
deriving DecidableEq, Repr

/-- The rusqlite error shapes that the code's error-translation paths
distinguish: `SqliteFailure(code, Option<String>)`, `QueryReturnedNoRows`,
`InvalidColumnType(index, name, type)` and everything else. -/
inductive EngineError where
  | sqliteFailure (code : EngineCode) (msg : Option String)
  | queryReturnedNoRows
  | invalidColumnType (idx : Nat) (name : String) (got : String)
  | otherErr (description : String)
deriving DecidableEq, Repr

/-- A printable description of an engine error, standing for
`err.to_string()` / boxing the error as `dyn Error`. -/
def EngineError.describe : EngineError → String
  | .sqliteFailure _ (some m) => m
  | .sqliteFailure _ none => "sqlite failure"
  | .queryReturnedNoRows => "Query returned no rows"
  | .invalidColumnType _ n t => "Invalid column type " ++ n ++ " " ++ t
  | .otherErr d => d

/-- `impl From<ErrorWithCtx<rusqlite::Error>> for Error` from `src/error.rs`:
a `SqliteFailure` whose code is not `DatabaseBusy` becomes `Storage`, a
`SqliteFailure` with `DatabaseBusy` becomes `LockConflict`, and every other
engine error becomes `Storage`. -/
def errorFromEngine : EngineError → OrmError
  | .sqliteFailure code m =>
      if code ≠ .databaseBusy then .storage ((EngineError.sqliteFailure code m).describe)
      else .lockConflict
  | e => .storage e.describe

/-! ### `MissingColumnError::get_error_from_text` (`src/error.rs`)

The Rust code searches the error text for the needle `"no such column:"`
(and otherwise `"has no column named"`), takes the text after the needle,
trims it, and looks the resulting name up among the schema's columns.
We model the text as a `String` and search over its character list. -/

/-- First index at which `needle` occurs as a contiguous sublist of `hay`
(Rust `str::find` restricted to the ASCII needles used by the code). -/
def findSub (needle hay : List Char) : Option Nat :=
  match hay with
  | [] => if needle = [] then some 0 else none
  | _ :: tl =>
      if needle.isPrefixOf hay then some 0
      else (findSub needle tl).map (· + 1)

/-- Rust `str::trim` for the ASCII whitespace appearing in engine messages. -/
def trimChars (l : List Char) : List Char :=
  (l.dropWhile Char.isWhitespace).reverse.dropWhile Char.isWhitespace |>.reverse

/-- `MissingColumnError::get_error_from_text` from `src/error.rs`: if the
text contains `"no such column:"` (else `"has no column named"`), take what
follows the needle, trim it, and if it names a schema column produce a
`MissingColumn` error with that column's metadata; failing that, produce the
`"id"` form only when the trimmed name is exactly `"id"`; otherwise `none`. -/
def getErrorFromText (err_text : String) (schema : Schema) : Option OrmError :=
  let cs := err_text.toList
  let needle1 := "no such column:".toList
  let needle2 := "has no column named".toList
  let skip? : Option Nat :=
    match findSub needle1 cs with
    | some i => some (i + needle1.length)
    | none =>
        match findSub needle2 cs with
        | some i => some (i + needle2.length)
        | none => none
  match skip? with
  | none => none
  | some k =>
      let name := String.mk (trimChars (cs.drop k))
      match schema.columns.find? (fun info => info.column_name = name) with
      | some info =>
          some (.missingColumn schema.type_name info.attr_name schema.table_name info.column_name)
      | none =>
          if name = "id" then
            some (.missingColumn schema.type_name "id" schema.table_name "id")
          else
            none

/-! ## Outcomes

Rust `Result` plus panic: every fallible or panicking operation is modelled
as returning a `TxOut`.  A `panic` models a Rust `panic!`/`unwrap` abort. -/

inductive TxOut (α : Type) where
  | ok (a : α)
  | err (e : OrmError)
  | panic
deriving Repr

/-- The error-mapping closure of `select_row` in `src/storage.rs`
(`.map_err(|err| match err ...)`), applied when the query failed:
`InvalidColumnType` becomes `UnexpectedType` with the column's metadata;
`SqliteFailure` feeds its message text into
`MissingColumnError::get_error_from_text` and `unwrap`s both the optional
text and the optional result (a `None` in either place is a panic); every
other error becomes `NotFound`. -/
def selectRowMapErr (id : ObjectId) (schema : Schema) : EngineError → TxOut OrmError
  | .invalidColumnType i _ got =>
      match schema.columns[i]? with
      | some c => .ok (.unexpectedType schema.type_name c.attr_name schema.table_name
          c.column_name c.typ got)
      | none => .panic
  | .sqliteFailure _ none => .panic
  | .sqliteFailure _ (some text) =>
      match getErrorFromText text schema with
      | some e => .ok e
      | none => .panic
  | _ => .ok (.notFound id schema.type_name)

/-- `insert_row`'s error wrap-up from `src/storage.rs`: on statement failure
the text is fed to `get_error_from_text`; a translation is returned as the
error, otherwise the engine error itself is converted (`e.into()`) via the
`From` impl. -/
def insertRowErr (e : EngineError) (schema : Schema) : OrmError :=
  match getErrorFromText e.describe schema with
  | some er => er
  | none => errorFromEngine e

/-! ## The unit of work (`src/transaction.rs`)

`Transaction` owns the identity map (`cell_map`), the mutation-state map
(`state_map`) and the storage transaction.  `Rc<DataCell>` and
`Rc<Cell<ObjectState>>` sharing is modelled with explicit heaps (`cellHeap`,
`stateHeap`) indexed by `Nat`; the maps and the handles store heap indices,
so two handles reference the identical shared instance precisely when they
hold the same index.  The record instance inside a `DataCell` is type-erased
in the source (`Box<dyn Record>`); we represent it by its serialized `Row`
(so `serialize` returns the stored row and a mutation replaces it), together
with the `TypeId` and `Schema` the `dyn Record` vtable supplies. -/

/-- `ObjectState` from `src/transaction.rs`. -/
inductive ObjectState where
  | clean
  | modified
  | removed
deriving DecidableEq, Repr

/-- The dynamic borrow flag of a `RefCell`. -/
inductive BorrowState where
  | free
  | shared (n : Nat)
  | exclusive
deriving DecidableEq, Repr

/-- A model of one mapped record type: its `TypeId` and its static schema. -/
structure ObjType where
  typeId : Nat
  table : Schema

/-- `DataCell` from `src/transaction.rs`: the row id and the `RefCell`'d
type-erased record instance (represented by its serialized row plus the
type/schema the erased trait object carries), with the `RefCell`'s dynamic
borrow flag made explicit. -/
structure DataCell where
  id : Int
  typeId : Nat
  table : Schema
  payload : Row
  borrow : BorrowState

instance : Inhabited DataCell := ⟨⟨0, 0, ⟨"", "", []⟩, [], .free⟩⟩

/-- The model of the SQL engine's state behind the storage transaction:
existing tables, rows keyed by (table name, id), and the next rowid the
engine will assign. -/
structure DB where
  tables : List String
  rows : List (String × Int × Row)
  nextId : Int

/-- One call made on the storage transaction, for trace-based claims. -/
inductive StorageCall where
  | tableExistsC (t : String)
  | createTableC (t : String)
  | insertRowC (t : String) (row : Row)
  | selectRowC (id : Int) (t : String)
  | updateRowC (id : Int) (t : String) (row : Row)
  | deleteRowC (id : Int) (t : String)
  | commitC
  | rollbackC

def StorageCall.isSelect : StorageCall → Bool
  | .selectRowC _ _ => true
  | _ => false

def StorageCall.isUpdate : StorageCall → Bool
  | .updateRowC _ _ _ => true
  | _ => false

def StorageCall.isDelete : StorageCall → Bool
  | .deleteRowC _ _ => true
  | _ => false

def StorageCall.isCommit : StorageCall → Bool
  | .commitC => true
  | _ => false

/-- `select_row` on the model engine: the first row of the table with the
given id, if any. -/
def DB.selectRow (db : DB) (t : String) (id : Int) : Option Row :=
  (db.rows.find? (fun r => r.1 = t ∧ r.2.1 = id)).map (fun r => r.2.2)

/-- `delete_row` on the model engine: `none` when zero rows are affected. -/
def DB.deleteRow (db : DB) (t : String) (id : Int) : Option DB :=
  if db.rows.any (fun r => r.1 = t ∧ r.2.1 = id) then
    some { db with rows := db.rows.filter (fun r => ¬(r.1 = t ∧ r.2.1 = id)) }
  else
    none

/-- `update_row` on the model engine (zero rows affected is not an error). -/
def DB.updateRow (db : DB) (t : String) (id : Int) (row : Row) : DB :=
  { db with rows := db.rows.map (fun r => if r.1 = t ∧ r.2.1 = id then (r.1, r.2.1, row) else r) }

/-- `Transaction` from `src/transaction.rs`: the identity map `cell_map`, the
mutation-state map `state_map` (both association lists over keys
`(TypeId, ObjectId)` holding heap indices), the two `Rc` heaps, and the
owned storage transaction's engine state. -/
structure Transaction where
  db : DB
  cellHeap : List DataCell
  stateHeap : List ObjectState
  cell_map : List ((Nat × Int) × Nat)
  state_map : List ((Nat × Int) × Nat)

/-- A fresh unit of work over a given engine state: empty maps, no cells. -/
def Transaction.fresh (db : DB) : Transaction := ⟨db, [], [], [], []⟩

/-- `HashMap::get` on the association-list model of the identity maps. -/
def alookup (m : List ((Nat × Int) × Nat)) (k : Nat × Int) : Option Nat :=
  match m with
  | [] => none
  | (k', v) :: tl => if k' = k then some v else alookup tl k

/-- `HashMap::insert` on the association-list model: replaces the binding in
place when the key is present, appends otherwise. -/
def ainsert (m : List ((Nat × Int) × Nat)) (k : Nat × Int) (v : Nat) :
    List ((Nat × Int) × Nat) :=
  match m with
  | [] => [(k, v)]
  | (k', v') :: tl => if k' = k then (k, v) :: tl else (k', v') :: ainsert tl k v

/-- `Tx` from `src/transaction.rs`: a handle holding the `Rc<DataCell>`
(as a heap index), the row id, and the `Rc<Cell<ObjectState>>` (as a heap
index). -/
structure Tx where
  cellId : Nat
  id : Int
  stateId : Nat
deriving DecidableEq, Repr

namespace Transaction

/-- `Transaction::ensure_table`: `table_exists`, then `create_table` when the
table is absent; returns the new state and the storage calls made. -/
def ensure_table (T : ObjType) (s : Transaction) : Transaction × List StorageCall :=
  let t := T.table.table_name
  if t ∈ s.db.tables then
    (s, [.tableExistsC t])
  else
    ({ s with db := { s.db with tables := t :: s.db.tables } },
      [.tableExistsC t, .createTableC t])

/-- `Transaction::create`: ensure the table, insert the serialized record to
obtain the engine-assigned id, register a fresh shared cell and a fresh
`Clean` state under `(TypeId, id)` in both maps, and return a handle. -/
def create (T : ObjType) (obj : Row) (s : Transaction) :
    TxOut Tx × Transaction × List StorageCall :=
  let s1 := (ensure_table T s).1
  let log1 := (ensure_table T s).2
  let t := T.table.table_name
  let rid := s1.db.nextId
  let key := (T.typeId, rid)
  let cid := s1.cellHeap.length
  let sid := s1.stateHeap.length
  let s2 : Transaction :=
    { db := { s1.db with rows := s1.db.rows ++ [(t, rid, obj)], nextId := rid + 1 }
      cellHeap := s1.cellHeap ++ [⟨rid, T.typeId, T.table, obj, .free⟩]
      stateHeap := s1.stateHeap ++ [.clean]
      cell_map := ainsert s1.cell_map key cid
      state_map := ainsert s1.state_map key sid }
  (.ok ⟨cid, rid, sid⟩, s2, log1 ++ [.insertRowC t obj])

/-- The fall-through tail of `Transaction::get`: select the row from storage,
deserialize it into a fresh `Clean` entry registered in both maps, return a
handle. -/
def getFetch (T : ObjType) (id : Int) (s : Transaction) (log : List StorageCall) :
    TxOut Tx × Transaction × List StorageCall :=
  let t := T.table.table_name
  match s.db.selectRow t id with
  | none =>
      (.err (.notFound id T.table.type_name), s, log ++ [.selectRowC id t])
  | some row =>
      let key := (T.typeId, id)
      let cid := s.cellHeap.length
      let sid := s.stateHeap.length
      let s2 : Transaction :=
        { s with
          cellHeap := s.cellHeap ++ [⟨id, T.typeId, T.table, row, .free⟩]
          stateHeap := s.stateHeap ++ [.clean]
          cell_map := ainsert s.cell_map key cid
          state_map := ainsert s.state_map key sid }
      (.ok ⟨cid, id, sid⟩, s2, log ++ [.selectRowC id t])

/-- `Transaction::get`: ensure the table; when the state map holds the key,
fail with `NotFound` if the state is `Removed`, otherwise return a handle to
the existing shared cell when the identity map holds the key too; in all
remaining cases fall through to a storage read. -/
def get (T : ObjType) (id : Int) (s : Transaction) :
    TxOut Tx × Transaction × List StorageCall :=
  let s1 := (ensure_table T s).1
  let log1 := (ensure_table T s).2
  let key := (T.typeId, id)
  match alookup s1.state_map key with
  | some sid =>
      if s1.stateHeap.getD sid .clean = .removed then
        (.err (.notFound id T.table.type_name), s1, log1)
      else
        match alookup s1.cell_map key with
        | some cid => (.ok ⟨cid, id, sid⟩, s1, log1)
        | none => getFetch T id s1 log1
  | none => getFetch T id s1 log1

end Transaction

/-- Overwrite the borrow flag of the cell at heap index `cid`. -/
def setBorrow (s : Transaction) (cid : Nat) (b : BorrowState) : Transaction :=
  { s with cellHeap := s.cellHeap.set cid { s.cellHeap.getD cid default with borrow := b } }

/-- Overwrite the record payload of the cell at heap index `cid`. -/
def setPayload (s : Transaction) (cid : Nat) (row : Row) : Transaction :=
  { s with cellHeap := s.cellHeap.set cid { s.cellHeap.getD cid default with payload := row } }

/-- Overwrite the shared mutation-state cell at heap index `sid`. -/
def setStateCell (s : Transaction) (sid : Nat) (st : ObjectState) : Transaction :=
  { s with stateHeap := s.stateHeap.set sid st }

namespace Tx

/-- `Tx::borrow`: panic when the shared state is `Removed`, panic when the
`RefCell` is exclusively borrowed, otherwise take a shared borrow. -/
def borrow (h : Tx) (s : Transaction) : TxOut Unit × Transaction :=
  if s.stateHeap.getD h.stateId .clean = .removed then
    (.panic, s)
  else
    match (s.cellHeap.getD h.cellId default).borrow with
    | .exclusive => (.panic, s)
    | .shared n => (.ok (), setBorrow s h.cellId (.shared (n + 1)))
    | .free => (.ok (), setBorrow s h.cellId (.shared 1))

/-- `Tx::borrow_mut`: panic when the shared state is `Removed`; otherwise
first set the shared state to `Modified`, then take the exclusive `RefCell`
borrow — which panics when any borrow is outstanding, with the `Modified`
write already performed. -/
def borrowMut (h : Tx) (s : Transaction) : TxOut Unit × Transaction :=
  if s.stateHeap.getD h.stateId .clean = .removed then
    (.panic, s)
  else
    let s1 := setStateCell s h.stateId .modified
    match (s1.cellHeap.getD h.cellId default).borrow with
    | .free => (.ok (), setBorrow s1 h.cellId .exclusive)
    | _ => (.panic, s1)

/-- Dropping one shared borrow guard (`Ref`). -/
def dropShared (h : Tx) (s : Transaction) : Transaction :=
  match (s.cellHeap.getD h.cellId default).borrow with
  | .shared (n + 1) => setBorrow s h.cellId (if n = 0 then .free else .shared n)
  | _ => s

/-- Dropping the exclusive borrow guard (`RefMut`). -/
def dropMut (h : Tx) (s : Transaction) : Transaction :=
  match (s.cellHeap.getD h.cellId default).borrow with
  | .exclusive => setBorrow s h.cellId .free
  | _ => s

/-- A complete mutation through a handle: `borrow_mut`, write the record
through the returned exclusive reference, drop the guard. -/
def mutate (h : Tx) (v : Row) (s : Transaction) : TxOut Unit × Transaction :=
  match (borrowMut h s).1 with
  | .ok _ => (.ok (), dropMut h (setPayload (borrowMut h s).2 h.cellId v))
  | r => (r, (borrowMut h s).2)

/-- A complete read through a handle: `borrow`, read the record, drop the
guard. -/
def read (h : Tx) (s : Transaction) : TxOut Row × Transaction :=
  match (borrow h s).1 with
  | .ok _ =>
      (.ok (((borrow h s).2).cellHeap.getD h.cellId default).payload,
        dropShared h (borrow h s).2)
  | .err e => (.err e, (borrow h s).2)
  | .panic => (.panic, (borrow h s).2)

/-- `Tx::delete`: `try_borrow_mut` on the content panics when any borrow is
outstanding; otherwise the shared state becomes `Removed`. -/
def delete (h : Tx) (s : Transaction) : TxOut Unit × Transaction :=
  match (s.cellHeap.getD h.cellId default).borrow with
  | .free => (.ok (), setStateCell s h.stateId .removed)
  | _ => (.panic, s)

end Tx

namespace Transaction

/-- The mutation state currently recorded for a key, read through both maps. -/
def entryState (s : Transaction) (k : Nat × Int) : Option ObjectState :=
  (alookup s.state_map k).map (fun sid => s.stateHeap.getD sid .clean)

/-- The loop body of `Transaction::try_apply` for one identity-map entry:
borrow the content (panics against an exclusive borrow), `unwrap` the state
lookup (panics when absent), then delete for `Removed`, update with the
entry's current serialized form for `Modified`, and skip for `Clean`.
Returns the engine state outcome and the storage calls made. -/
def applyEntry (s : Transaction) (db : DB) (e : (Nat × Int) × Nat) :
    TxOut DB × List StorageCall :=
  let cell := s.cellHeap.getD e.2 default
  if cell.borrow = .exclusive then (.panic, [])
  else
      match alookup s.state_map e.1 with
      | none => (.panic, [])
      | some sid =>
          match s.stateHeap.getD sid .clean with
          | .removed =>
              match db.deleteRow cell.table.table_name cell.id with
              | some db' => (.ok db', [.deleteRowC cell.id cell.table.table_name])
              | none =>
                  (.err (.notFound cell.id cell.table.type_name),
                    [.deleteRowC cell.id cell.table.table_name])
          | .modified =>
              (.ok (db.updateRow cell.table.table_name cell.id cell.payload),
                [.updateRowC cell.id cell.table.table_name cell.payload])
          | .clean => (.ok db, [])

/-- The iteration of `Transaction::try_apply` over the identity-map entries,
threading the engine state and accumulating the storage-call trace; the walk
stops at the first error or panic. -/
def tryApplyGo (s : Transaction) (entries : List ((Nat × Int) × Nat)) (db : DB) :
    TxOut Unit × DB × List StorageCall :=
  match entries with
  | [] => (.ok (), db, [])
  | e :: tl =>
      match (applyEntry s db e).1 with
      | .ok db' =>
          ((tryApplyGo s tl db').1, (tryApplyGo s tl db').2.1,
            (applyEntry s db e).2 ++ (tryApplyGo s tl db').2.2)
      | .err er => (.err er, db, (applyEntry s db e).2)
      | .panic => (.panic, db, (applyEntry s db e).2)

/-- `Transaction::try_apply` from `src/transaction.rs`. -/
def try_apply (s : Transaction) : TxOut Unit × DB × List StorageCall :=
  tryApplyGo s s.cell_map s.db

/-- `Transaction::commit`: flush via `try_apply`, then — only when the flush
returned without error — commit the underlying storage transaction. -/
def commit (s : Transaction) : TxOut Unit × Transaction × List StorageCall :=
  match (try_apply s).1 with
  | .ok _ =>
      (.ok (), { s with db := (try_apply s).2.1 }, (try_apply s).2.2 ++ [.commitC])
  | .err e => (.err e, { s with db := (try_apply s).2.1 }, (try_apply s).2.2)
  | .panic => (.panic, { s with db := (try_apply s).2.1 }, (try_apply s).2.2)

/-- The number of identity-map entries currently in a given mutation state. -/
def countState (s : Transaction) (st : ObjectState) : Nat :=
  (s.cell_map.filter (fun e => entryState s e.1 = some st)).length

/-- The storage calls the flush walk makes when it runs to completion: one
`delete_row` per `Removed` entry, one `update_row` (with the entry's current
serialized form) per `Modified` entry, nothing for the rest, in iteration
order. -/
def flushCalls (s : Transaction) : List ((Nat × Int) × Nat) → List StorageCall
  | [] => []
  | e :: tl =>
      (match entryState s e.1 with
       | some .removed =>
           [.deleteRowC (s.cellHeap.getD e.2 default).id
              (s.cellHeap.getD e.2 default).table.table_name]
       | some .modified =>
           [.updateRowC (s.cellHeap.getD e.2 default).id
              (s.cellHeap.getD e.2 default).table.table_name
              (s.cellHeap.getD e.2 default).payload]
       | _ => []) ++ flushCalls s tl

end Transaction

/-! ## The reachable-state step relation

One step of use of an open unit of work: any `create`, `get`, `borrow`,
`borrow_mut` or `delete` call (with any arguments, any outcome), or dropping
a borrow guard. -/

inductive Step : Transaction → Transaction → Prop where
  | createS (T : ObjType) (obj : Row) (s : Transaction) :
      Step s (Transaction.create T obj s).2.1
  | getS (T : ObjType) (id : Int) (s : Transaction) :
      Step s (Transaction.get T id s).2.1
  | borrowS (h : Tx) (s : Transaction) : Step s (Tx.borrow h s).2
  | borrowMutS (h : Tx) (s : Transaction) : Step s (Tx.borrowMut h s).2
  | deleteS (h : Tx) (s : Transaction) : Step s (Tx.delete h s).2
  | dropSharedS (h : Tx) (s : Transaction) : Step s (Tx.dropShared h s)
  | dropMutS (h : Tx) (s : Transaction) : Step s (Tx.dropMut h s)

/-- States of a unit of work reachable from a fresh one over some engine
state. -/
def Reachable (s : Transaction) : Prop :=
  ∃ db, Relation.ReflTransGen Step (Transaction.fresh db) s

/-! ## The generated object mapping (`orm-derive/src/lib.rs`)

The derive macro generates, for a struct, a static `Schema` listing one
column per field in declaration order, a `serialize` producing one `Value`
per field in that order via the `From<&T> for Value` conversions of
`src/data.rs`, and a `deserialize` consuming `row.into_iter()` with
`iter.next().unwrap().into()` per field.  The `unwrap` on a missing element
and the `From<Value>` conversions' panic on a tag mismatch are modelled as
`none`.  `TestRecord` is a representative mapped struct with one field of
each of the five scalar kinds. -/

/-- `From<Value> for String` (`src/data.rs`): panics unless the variant
matches. -/
def valueToString : Value → Option String
  | .str s => some s
  | _ => none

/-- `From<Value> for Vec<u8>`. -/
def valueToBytes : Value → Option (List Nat)
  | .bytes b => some b
  | _ => none

/-- `From<Value> for i64`. -/
def valueToInt64 : Value → Option Int
  | .int64 i => some i
  | _ => none

/-- `From<Value> for f64`. -/
def valueToFloat64 : Value → Option Float
  | .float64 f => some f
  | _ => none

/-- `From<Value> for bool`. -/
def valueToBool : Value → Option Bool
  | .bool b => some b
  | _ => none

/-- A representative mapped record type with one field of each scalar kind,
in declaration order. -/
structure TestRecord where
  name : String
  blob : List Nat
  count : Int
  ratio : Float
  flag : Bool

namespace TestRecord

/-- The `Schema` the derive generates for `TestRecord`: one column per field
in declaration order, `column_name` and `attr_name` both the field name, and
the `DataType` tag from the field's native type. -/
def TABLE : Schema :=
  { table_name := "TestRecord"
    type_name := "TestRecord"
    columns :=
      [ ⟨"name", "name", .string⟩
      , ⟨"blob", "blob", .bytes⟩
      , ⟨"count", "count", .int64⟩
      , ⟨"ratio", "ratio", .float64⟩
      , ⟨"flag", "flag", .bool⟩ ] }

/-- The generated `serialize`: `vec![(&self.name).into(), …]` in field
order. -/
def serialize (r : TestRecord) : Row :=
  [.str r.name, .bytes r.blob, .int64 r.count, .float64 r.ratio, .bool r.flag]

/-- The generated `deserialize`: five `iter.next().unwrap().into()` in field
order (further elements are ignored); a missing element or a tag mismatch is
a panic, modelled as `none`. -/
def deserialize (row : Row) : Option TestRecord :=
  match row with
  | v0 :: v1 :: v2 :: v3 :: v4 :: _ => do
      let name ← valueToString v0
      let blob ← valueToBytes v1
      let count ← valueToInt64 v2
      let ratio ← valueToFloat64 v3
      let flag ← valueToBool v4
      some ⟨name, blob, count, ratio, flag⟩
  | _ => none

end TestRecord

/-- The closed form of the column declarations that `create_text` renders:
`, <column_name> <attr_name>` for each column in schema order (the spec's
`, <col> <decl>` list, the `Column`'s second field being what the spec calls
the declared SQL type). -/
def renderCols : List Column → String
  | [] => ""
  | c :: tl => ", " ++ c.column_name ++ " " ++ c.attr_name ++ renderCols tl

/-- A concrete schema (one mapped column `name`) for the error-translation
counterexamples and witnesses. -/
def schemaC5 : Schema := ⟨"users", "User", [⟨"name", "name", .string⟩]⟩

/-- A concrete schema with no mapped columns, for witness states. -/
def schemaT : Schema := ⟨"t", "T", []⟩

/-- A concrete mapped type over `schemaT`. -/
def T0 : ObjType := ⟨0, schemaT⟩

/-- A concrete engine state whose table `t` already exists and is empty. -/
def db1 : DB := ⟨["t"], [], 1⟩

/-- A concrete engine state with three rows in table `t`. -/
def db0 : DB := ⟨["t"], [("t", 1, []), ("t", 2, []), ("t", 3, [])], 4⟩

/-- A concrete mid-transaction unit of work over `db0` tracking three
entries: entry `(0,1)` is `Modified`, entry `(0,2)` is `Removed`, entry
`(0,3)` is `Clean`; no borrows are outstanding. -/
def sW : Transaction :=
  { db := db0
    cellHeap :=
      [⟨1, 0, schemaT, [], .free⟩, ⟨2, 0, schemaT, [], .free⟩, ⟨3, 0, schemaT, [], .free⟩]
    stateHeap := [.modified, .removed, .clean]
    cell_map := [((0, 1), 0), ((0, 2), 1), ((0, 3), 2)]
    state_map := [((0, 1), 0), ((0, 2), 1), ((0, 3), 2)] }

/-- A concrete unit of work with one `Clean` entry whose instance has one
outstanding shared borrow. -/
def sW2 : Transaction :=
  { db := db1
    cellHeap := [⟨1, 0, schemaT, [], .shared 1⟩]
    stateHeap := [.clean]
    cell_map := [((0, 1), 0)]
    state_map := [((0, 1), 0)] }

/-! # Theorems -/

lemma create_text_foldl (cols : List Column) (acc : String) :
    cols.foldl (fun a c => a ++ ", " ++ c.column_name ++ " " ++ c.attr_name) acc
      = acc ++ renderCols cols := by
  induction cols generalizing acc with
  | nil => simp [renderCols]
  | cons c tl ih =>
      rw [List.foldl_cons, ih]
      simp [renderCols, String.append_assoc]

/-- C6: for every schema, the generated create-table statement is exactly
`CREATE TABLE <table> (id INTEGER PRIMARY KEY AUTOINCREMENT` followed by
`, <col> <decl>` for each column in the schema's fixed order and a closing
parenthesis, where `<col>` is the column's `column_name` and `<decl>` is the
column's declaration text (the `Column`'s second field). -/
theorem create_text_shape (s : Schema) :
    s.create_text
      = "CREATE TABLE " ++ s.table_name ++ " (id INTEGER PRIMARY KEY AUTOINCREMENT"
          ++ renderCols s.columns ++ ")" := by
  simp only [Schema.create_text]
  rw [create_text_foldl]

/-! ### Error-translation claims -/

lemma findSub_append_self (needle rest : List Char) (h : needle ≠ []) :
    findSub needle (needle ++ rest) = some 0 := by
  cases needle with
  | nil => exact absurd rfl h
  | cons a ntl =>
      have hpre : (a :: ntl).isPrefixOf ((a :: ntl) ++ rest) := by
        simp [List.isPrefixOf_iff_prefix]
      simp [findSub, hpre]

lemma trimChars_space_cons (l : List Char) : trimChars (' ' :: l) = trimChars l := by
  have hws : (' ').isWhitespace = true := by decide
  simp [trimChars, List.dropWhile_cons, hws]

/-- C5 (counterexample): for a schema with single column `name`, the
engine text `no such column: foo` reports a name matching no column and
different from `id`; `get_error_from_text` yields no translation, and
`insert_row` therefore surfaces the opaque engine error (a `Storage` value),
not a `MissingColumn` error referencing `"id"` as the claim states. -/
theorem getErrorFromText_unmatched_not_id :
    getErrorFromText "no such column: foo" schemaC5 = none
      ∧ insertRowErr (.sqliteFailure (.otherCode 1) (some "no such column: foo")) schemaC5
          = .storage "no such column: foo" := by
  exact ⟨rfl, rfl⟩

/-- C5 (amended): if `insert_row`'s statement fails with a
`no such column: <name>` engine error, then when `<name>` matches a schema
column the translation references that column's metadata; when it matches no
column it references `"id"` only if `<name>` is exactly `id`, and otherwise
there is no translation (the opaque engine error is returned by
`insert_row`). -/
theorem getErrorFromText_translation (schema : Schema) (name : String)
    (h1 : trimChars name.toList = name.toList) :
    getErrorFromText ("no such column: " ++ name) schema
      = (match schema.columns.find? (fun info => info.column_name = name) with
         | some info =>
             some (.missingColumn schema.type_name info.attr_name
               schema.table_name info.column_name)
         | none =>
             if name = "id" then
               some (.missingColumn schema.type_name "id" schema.table_name "id")
             else none) := by
  have hsplit : ("no such column: " ++ name).toList
      = "no such column:".toList ++ (' ' :: name.toList) := by
    simp [String.toList]
  have hfind : findSub ("no such column:".toList)
      ("no such column:".toList ++ (' ' :: name.toList)) = some 0 :=
    findSub_append_self _ _ (by decide)
  have hdrop : ("no such column:".toList ++ (' ' :: name.toList)).drop
      (0 + ("no such column:".toList).length) = ' ' :: name.toList := by
    rw [Nat.zero_add, List.drop_left]
  have htrim : trimChars (' ' :: name.toList) = name.toList :=
    (trimChars_space_cons _).trans h1
  simp only [getErrorFromText, hsplit, hfind, hdrop, htrim]
  rfl

/-- Witness for the amended C5 statement at the schema
`users(name)` and the reported name `name` (the spec's own scenario: an
engine error `no such column: name` against a schema with column `name`). -/
theorem getErrorFromText_translation_witness :
    trimChars "name".toList = "name".toList
      ∧ getErrorFromText ("no such column: " ++ "name") schemaC5
          = some (.missingColumn "User" "name" "users" "name") :=
  ⟨rfl, (getErrorFromText_translation schemaC5 "name" rfl).trans rfl⟩

/-- C4 (failing input): inside `select_row`'s error mapping, an engine
busy/locked failure — `SqliteFailure(DatabaseBusy, Some("database is
locked"))` — aborts (the code `unwrap`s the missing-column translation,
which is `None` for this text) instead of being returned as the recoverable
`LockConflict` value that the boundary translation (`From<…> for Error`)
produces for the very same engine error. -/
theorem select_row_busy_aborts :
    selectRowMapErr 42 schemaC5 (.sqliteFailure .databaseBusy (some "database is locked"))
        = .panic
      ∧ errorFromEngine (.sqliteFailure .databaseBusy (some "database is locked"))
          = .lockConflict := by
  exact ⟨rfl, rfl⟩

/-- C7: serialize–deserialize round-trip for the generated object mapping:
deserializing the serialization of any record value yields the record back,
the produced row's length equals the schema's column count, and the value
tags match the columns' data types positionally. -/
theorem serialize_roundtrip (r : TestRecord) :
    TestRecord.deserialize (TestRecord.serialize r) = some r
      ∧ (TestRecord.serialize r).length = TestRecord.TABLE.columns.length
      ∧ (TestRecord.serialize r).map Value.tag = TestRecord.TABLE.columns.map Column.typ := by
  refine ⟨?_, rfl, rfl⟩
  cases r
  rfl

/-! ### List and association-list helper lemmas -/

lemma alookup_ainsert_self (m : List ((Nat × Int) × Nat)) (k : Nat × Int) (v : Nat) :
    alookup (ainsert m k v) k = some v := by
  induction m with
  | nil => simp [ainsert, alookup]
  | cons e tl ih =>
      by_cases h : e.1 = k
      · simp [ainsert, alookup, h]
      · simp [ainsert, alookup, h, ih]

lemma getD_concat_length (l : List α) (a d : α) : (l ++ [a]).getD l.length d = a := by
  induction l with
  | nil => rfl
  | cons b tl ih => simp [List.getD_cons_succ, ih]

lemma getD_set_self (l : List α) (i : Nat) (v d : α) (h : i < l.length) :
    (l.set i v).getD i d = v := by
  induction l generalizing i with
  | nil => simp at h
  | cons a tl ih =>
      cases i with
      | zero => rfl
      | succ n => simpa [List.getD_cons_succ] using ih n (by simpa using h)

lemma set_concat_length (l : List α) (a b : α) : (l ++ [a]).set l.length b = l ++ [b] := by
  induction l with
  | nil => rfl
  | cons c tl ih => simp [ih]

lemma getD_ge (l : List α) (i : Nat) (d : α) (h : l.length ≤ i) : l.getD i d = d := by
  induction l generalizing i with
  | nil => rfl
  | cons a tl ih =>
      cases i with
      | zero => simp at h
      | succ n =>
          rw [List.getD_cons_succ]
          exact ih n (by simpa using h)

/-! ### `ensure_table` characterization -/

lemma ensure_table_heaps (T : ObjType) (s : Transaction) :
    ((Transaction.ensure_table T s).1).cellHeap = s.cellHeap
      ∧ ((Transaction.ensure_table T s).1).stateHeap = s.stateHeap
      ∧ ((Transaction.ensure_table T s).1).cell_map = s.cell_map
      ∧ ((Transaction.ensure_table T s).1).state_map = s.state_map
      ∧ ((Transaction.ensure_table T s).1).db.rows = s.db.rows
      ∧ ((Transaction.ensure_table T s).1).db.nextId = s.db.nextId := by
  simp only [Transaction.ensure_table]
  split <;> simp

lemma ensure_table_mem (T : ObjType) (s : Transaction) :
    T.table.table_name ∈ ((Transaction.ensure_table T s).1).db.tables := by
  simp only [Transaction.ensure_table]
  split
  · assumption
  · simp

lemma ensure_table_of_mem (T : ObjType) (s : Transaction)
    (h : T.table.table_name ∈ s.db.tables) :
    Transaction.ensure_table T s = (s, [.tableExistsC T.table.table_name]) := by
  simp [Transaction.ensure_table, h]

lemma ensure_table_log (T : ObjType) (s : Transaction) :
    (Transaction.ensure_table T s).2 = [.tableExistsC T.table.table_name]
      ∨ (Transaction.ensure_table T s).2
        = [.tableExistsC T.table.table_name, .createTableC T.table.table_name] := by
  simp only [Transaction.ensure_table]
  split
  · exact .inl rfl
  · exact .inr rfl

/-- An identity-map hit in `get`: when the state map holds the key with a
non-`Removed` state and the identity map holds the key, `get` returns a
handle to the existing entry, changes nothing but (possibly) the set of
known tables, and performs no `select_row`. -/
lemma get_hit (T : ObjType) (id : Int) (s : Transaction) (sid cid : Nat)
    (h1 : alookup s.state_map (T.typeId, id) = some sid)
    (h2 : s.stateHeap.getD sid .clean ≠ .removed)
    (h3 : alookup s.cell_map (T.typeId, id) = some cid) :
    Transaction.get T id s
      = (.ok ⟨cid, id, sid⟩, (Transaction.ensure_table T s).1,
          (Transaction.ensure_table T s).2) := by
  have hm := ensure_table_heaps T s
  simp only [Transaction.get, hm.2.2.2.1, hm.2.2.1, hm.2.1, h1, h3, if_neg h2]

/-- A full mutate-then-read cycle through a handle whose entry is live and
unborrowed: the mutation succeeds and the read observes the written record. -/
lemma mutate_read (s' : Transaction) (h : Tx) (v : Row)
    (hst : h.stateId < s'.stateHeap.length)
    (hnr : s'.stateHeap.getD h.stateId .clean ≠ .removed)
    (hcell : h.cellId < s'.cellHeap.length)
    (hfree : (s'.cellHeap.getD h.cellId default).borrow = .free) :
    (Tx.mutate h v s').1 = .ok ()
      ∧ (Tx.read h (Tx.mutate h v s').2).1 = .ok v := by
  have hfree' : (((setStateCell s' h.stateId .modified).cellHeap.getD h.cellId default)).borrow
      = BorrowState.free := hfree
  have hbm : Tx.borrowMut h s'
      = (.ok (), setBorrow (setStateCell s' h.stateId .modified) h.cellId .exclusive) := by
    simp only [Tx.borrowMut, if_neg hnr, hfree']
  have hmut : Tx.mutate h v s'
      = (.ok (), Tx.dropMut h (setPayload
          (setBorrow (setStateCell s' h.stateId .modified) h.cellId .exclusive)
          h.cellId v)) := by
    simp only [Tx.mutate, hbm]
  refine ⟨by rw [hmut], ?_⟩
  rw [hmut]
  set sb := setBorrow (setStateCell s' h.stateId .modified) h.cellId .exclusive with hsb
  set sp := setPayload sb h.cellId v with hsp
  have hcell' : h.cellId < sb.cellHeap.length := by
    simpa [hsb, setBorrow, setStateCell] using hcell
  have hgb : sb.cellHeap.getD h.cellId default
      = { s'.cellHeap.getD h.cellId default with borrow := .exclusive } :=
    getD_set_self _ _ _ _ hcell
  have hcell'' : h.cellId < sp.cellHeap.length := by
    simpa [hsp, setPayload] using hcell'
  have hgp : sp.cellHeap.getD h.cellId default
      = { s'.cellHeap.getD h.cellId default with borrow := .exclusive, payload := v } := by
    have hx : sp.cellHeap.getD h.cellId default
        = { sb.cellHeap.getD h.cellId default with payload := v } :=
      getD_set_self _ _ _ _ hcell'
    rw [hx, hgb]
  have hdm : Tx.dropMut h sp = setBorrow sp h.cellId .free := by
    simp only [Tx.dropMut, hgp]
  show (Tx.read h (Tx.dropMut h sp)).1 = .ok v
  rw [hdm]
  set sf := setBorrow sp h.cellId .free with hsf
  have hcell3 : h.cellId < sf.cellHeap.length := by
    simpa [hsf, setBorrow] using hcell''
  have hgf : sf.cellHeap.getD h.cellId default
      = { s'.cellHeap.getD h.cellId default with borrow := .free, payload := v } := by
    have hx : sf.cellHeap.getD h.cellId default
        = { sp.cellHeap.getD h.cellId default with borrow := .free } :=
      getD_set_self _ _ _ _ hcell''
    rw [hx, hgp]
  have hstf : sf.stateHeap = s'.stateHeap.set h.stateId .modified := by
    simp [hsf, hsp, hsb, setBorrow, setPayload, setStateCell]
  have hstmod : sf.stateHeap.getD h.stateId .clean = .modified := by
    rw [hstf]; exact getD_set_self _ _ _ _ hst
  have hnr2 : sf.stateHeap.getD h.stateId .clean ≠ .removed := by
    rw [hstmod]; decide
  have hbor : Tx.borrow h sf = (.ok (), setBorrow sf h.cellId (.shared 1)) := by
    simp only [Tx.borrow, if_neg hnr2, hgf]
  have hpay : ((setBorrow sf h.cellId (.shared 1)).cellHeap.getD h.cellId default).payload
      = v := by
    have hx : (setBorrow sf h.cellId (.shared 1)).cellHeap.getD h.cellId default
        = { sf.cellHeap.getD h.cellId default with borrow := .shared 1 } :=
      getD_set_self _ _ _ _ hcell3
    rw [hx, hgf]
  simp only [Tx.read, hbor, hpay]

/-- C1: after `create` succeeds, a `get` of the returned handle's id for the
same type returns the very same handle (the identical shared instance: same
cell, same state cell), changes nothing, and performs no `select_row` — its
only storage call is the `table_exists` probe; a mutation through the handle
is observed by a read through the returned (identical) handle.  More
generally, whenever both maps hold a key whose state is not `Removed`, `get`
returns a handle to the existing entry, leaves the heaps untouched and makes
no `select_row` call. -/
theorem create_then_get (T : ObjType) (obj : Row) (s : Transaction) (h : Tx)
    (s₁ : Transaction) (log₁ : List StorageCall)
    (hc : Transaction.create T obj s = (.ok h, s₁, log₁)) :
    Transaction.get T h.id s₁ = (.ok h, s₁, [.tableExistsC T.table.table_name])
      ∧ (∀ v : Row, (Tx.mutate h v s₁).1 = .ok ()
          ∧ (Tx.read h (Tx.mutate h v s₁).2).1 = .ok v)
      ∧ (∀ (T' : ObjType) (id : Int) (s' : Transaction) (sid cid : Nat),
          alookup s'.state_map (T'.typeId, id) = some sid →
          s'.stateHeap.getD sid .clean ≠ .removed →
          alookup s'.cell_map (T'.typeId, id) = some cid →
          (Transaction.get T' id s').1 = .ok ⟨cid, id, sid⟩
            ∧ ((Transaction.get T' id s').2.1).cellHeap = s'.cellHeap
            ∧ ∀ c ∈ (Transaction.get T' id s').2.2, c.isSelect = false) := by
  have hh : h = ⟨((Transaction.ensure_table T s).1).cellHeap.length,
      ((Transaction.ensure_table T s).1).db.nextId,
      ((Transaction.ensure_table T s).1).stateHeap.length⟩ := by
    have h1 := congrArg (fun p => p.1) hc
    simp only [Transaction.create] at h1
    exact (TxOut.ok.inj h1).symm
  have hs : s₁ = (Transaction.create T obj s).2.1 := by rw [hc]
  subst hs
  constructor
  · -- the create-then-get scenario
    have hmem : T.table.table_name ∈ ((Transaction.create T obj s).2.1).db.tables :=
      ensure_table_mem T s
    have hlook1 : alookup ((Transaction.create T obj s).2.1).state_map (T.typeId, h.id)
        = some ((Transaction.ensure_table T s).1).stateHeap.length := by
      rw [hh]
      exact alookup_ainsert_self _ _ _
    have hlook2 : alookup ((Transaction.create T obj s).2.1).cell_map (T.typeId, h.id)
        = some ((Transaction.ensure_table T s).1).cellHeap.length := by
      rw [hh]
      exact alookup_ainsert_self _ _ _
    have hstc : ((Transaction.create T obj s).2.1).stateHeap.getD
        ((Transaction.ensure_table T s).1).stateHeap.length .clean = .clean :=
      getD_concat_length _ _ _
    have hget := get_hit T h.id ((Transaction.create T obj s).2.1) _ _ hlook1
      (by rw [hstc]; decide) hlook2
    rw [ensure_table_of_mem T _ hmem] at hget
    rw [hget, hh]
  constructor
  · -- mutate through the handle, read it back
    intro v
    refine mutate_read _ h v ?_ ?_ ?_ ?_
    · rw [hh]
      show ((Transaction.ensure_table T s).1).stateHeap.length
        < (((Transaction.ensure_table T s).1).stateHeap ++ [ObjectState.clean]).length
      simp
    · have hstc : ((Transaction.create T obj s).2.1).stateHeap.getD
          ((Transaction.ensure_table T s).1).stateHeap.length .clean = .clean :=
        getD_concat_length _ _ _
      rw [hh]
      show ¬ ((Transaction.create T obj s).2.1).stateHeap.getD
          ((Transaction.ensure_table T s).1).stateHeap.length .clean = .removed
      rw [hstc]; decide
    · rw [hh]
      show ((Transaction.ensure_table T s).1).cellHeap.length
        < (((Transaction.ensure_table T s).1).cellHeap
            ++ [(⟨((Transaction.ensure_table T s).1).db.nextId, T.typeId, T.table, obj,
                  .free⟩ : DataCell)]).length
      simp
    · rw [hh]
      show ((((Transaction.ensure_table T s).1).cellHeap
            ++ [(⟨((Transaction.ensure_table T s).1).db.nextId, T.typeId, T.table, obj,
                  .free⟩ : DataCell)]).getD
          ((Transaction.ensure_table T s).1).cellHeap.length default).borrow = .free
      rw [getD_concat_length]
  · -- the general identity-map-hit behaviour of get
    intro T' id s' sid cid h1 h2 h3
    have hget := get_hit T' id s' sid cid h1 h2 h3
    refine ⟨by rw [hget], ?_, ?_⟩
    · rw [hget]
      exact (ensure_table_heaps T' s').1
    · rw [hget]
      rcases ensure_table_log T' s' with hl | hl <;> rw [hl]
      · intro c hcmem
        simp only [List.mem_singleton] at hcmem
        subst hcmem
        rfl
      · intro c hcmem
        simp only [List.mem_cons, List.mem_singleton, List.not_mem_nil, or_false] at hcmem
        rcases hcmem with rfl | rfl <;> rfl

/-- Witness for C1: over an engine whose empty table `t` exists, creating a
record yields handle `⟨0, 1, 0⟩`, and getting id 1 back returns the same
handle with only a `table_exists` probe. -/
theorem create_then_get_witness :
    Transaction.create T0 [] (Transaction.fresh db1)
        = (.ok ⟨0, 1, 0⟩, (Transaction.create T0 [] (Transaction.fresh db1)).2.1,
            (Transaction.create T0 [] (Transaction.fresh db1)).2.2)
      ∧ Transaction.get T0 1 ((Transaction.create T0 [] (Transaction.fresh db1)).2.1)
          = (.ok ⟨0, 1, 0⟩, (Transaction.create T0 [] (Transaction.fresh db1)).2.1,
              [.tableExistsC "t"]) :=
  ⟨rfl, (create_then_get T0 [] (Transaction.fresh db1) ⟨0, 1, 0⟩ _ _ rfl).1⟩

/-- Any borrow attempt on a handle whose shared state cell reads `Removed`
panics. -/
lemma borrow_removed (h' : Tx) (S : Transaction)
    (hrm : S.stateHeap.getD h'.stateId .clean = .removed) :
    (Tx.borrow h' S).1 = .panic ∧ (Tx.borrowMut h' S).1 = .panic := by
  constructor
  · simp only [Tx.borrow, if_pos hrm]
  · simp only [Tx.borrowMut, if_pos hrm]

/-- C3: with no borrow outstanding, `delete` succeeds and marks the shared
state cell `Removed`; afterwards every borrow through any handle sharing that
state cell panics, and a `get` for that key fails with `NotFound` carrying
the id and the type name; and `delete` itself panics whenever some borrow of
the instance is outstanding. -/
theorem delete_then_inaccessible (T : ObjType) (s : Transaction) (h : Tx)
    (hfree : (s.cellHeap.getD h.cellId default).borrow = .free)
    (hsid : h.stateId < s.stateHeap.length)
    (hmap : alookup s.state_map (T.typeId, h.id) = some h.stateId) :
    (Tx.delete h s).1 = .ok ()
      ∧ ((Tx.delete h s).2).stateHeap.getD h.stateId .clean = .removed
      ∧ (∀ h' : Tx, h'.stateId = h.stateId →
          (Tx.borrow h' (Tx.delete h s).2).1 = .panic
            ∧ (Tx.borrowMut h' (Tx.delete h s).2).1 = .panic)
      ∧ (Transaction.get T h.id (Tx.delete h s).2).1
          = .err (.notFound h.id T.table.type_name)
      ∧ (∀ s₀ : Transaction, (s₀.cellHeap.getD h.cellId default).borrow ≠ .free →
          (Tx.delete h s₀).1 = .panic) := by
  have hdel : Tx.delete h s = (.ok (), setStateCell s h.stateId .removed) := by
    simp only [Tx.delete, hfree]
  have hrem : ((setStateCell s h.stateId .removed)).stateHeap.getD h.stateId .clean
      = .removed := getD_set_self _ _ _ _ hsid
  refine ⟨by rw [hdel], by rw [hdel]; exact hrem, ?_, ?_, ?_⟩
  · intro h' heq
    rw [hdel]
    exact borrow_removed h' _ (by rw [heq]; exact hrem)
  · rw [hdel]
    have hmap' : alookup ((setStateCell s h.stateId .removed)).state_map (T.typeId, h.id)
        = some h.stateId := hmap
    have hm := ensure_table_heaps T (setStateCell s h.stateId .removed)
    simp only [Transaction.get, hm.2.2.2.1, hm.2.1, hmap', if_pos hrem]
  · intro s₀ hb
    rcases hc : (s₀.cellHeap.getD h.cellId default).borrow with _ | n | _
    · exact absurd hc hb
    · simp only [Tx.delete, hc]
    · simp only [Tx.delete, hc]

/-- Witness for C3 at the concrete state `sW`: deleting the `Clean` entry
`(0,3)` succeeds, after which its borrows panic and `get` reports
`NotFound(3, T)`. -/
theorem delete_then_inaccessible_witness :
    ((sW.cellHeap.getD 2 default).borrow = .free
        ∧ (2 : Nat) < sW.stateHeap.length
        ∧ alookup sW.state_map (T0.typeId, 3) = some 2)
      ∧ (Transaction.get T0 3 (Tx.delete ⟨2, 3, 2⟩ sW).2).1
          = .err (.notFound 3 T0.table.type_name) :=
  ⟨⟨rfl, by decide, rfl⟩,
    (delete_then_inaccessible T0 sW ⟨2, 3, 2⟩ rfl (by decide) rfl).2.2.2.1⟩

/-- C8: calling `borrow_mut` on a handle whose entry is not `Removed` sets
the shared mutation state to `Modified` in the resulting state — no write
through the returned reference is involved — while calling it on a `Removed`
entry panics and leaves the state untouched. -/
theorem borrowMut_sets_modified (s : Transaction) (h : Tx)
    (hsid : h.stateId < s.stateHeap.length) :
    (s.stateHeap.getD h.stateId .clean ≠ .removed →
        ((Tx.borrowMut h s).2).stateHeap.getD h.stateId .clean = .modified)
      ∧ (s.stateHeap.getD h.stateId .clean = .removed →
          (Tx.borrowMut h s).1 = .panic ∧ (Tx.borrowMut h s).2 = s) := by
  constructor
  · intro hnr
    have hmod : ((setStateCell s h.stateId .modified)).stateHeap.getD h.stateId .clean
        = .modified := getD_set_self _ _ _ _ hsid
    simp only [Tx.borrowMut, if_neg hnr]
    rcases hc : ((setStateCell s h.stateId .modified).cellHeap.getD h.cellId default).borrow
      with _ | n | _ <;> exact hmod
  · intro hr
    constructor <;> simp only [Tx.borrowMut, if_pos hr]

/-- Witness for C8 at `sW`: entry `(0,1)` is `Modified` (not `Removed`), and
a `borrow_mut` through handle `⟨0, 1, 0⟩` leaves the shared state cell at
`Modified`. -/
theorem borrowMut_sets_modified_witness :
    (0 : Nat) < sW.stateHeap.length
      ∧ ((Tx.borrowMut ⟨0, 1, 0⟩ sW).2).stateHeap.getD 0 .clean = .modified :=
  ⟨by decide,
    (borrowMut_sets_modified sW ⟨0, 1, 0⟩ (by decide)).1 (by decide)⟩

/-- C10: a `borrow_mut` on a live (non-`Removed`) entry whose instance has an
outstanding borrow panics, but the shared mutation state has already been set
to `Modified` in the state it leaves behind; consequently, once the
outstanding borrow is dropped, the commit-flush loop body emits an
`update_row` for that entry even though the record was never written. -/
theorem borrowMut_conflict (s : Transaction) (h : Tx)
    (hsid : h.stateId < s.stateHeap.length)
    (hnr : s.stateHeap.getD h.stateId .clean ≠ .removed)
    (hb : (s.cellHeap.getD h.cellId default).borrow ≠ .free) :
    (Tx.borrowMut h s).1 = .panic
      ∧ ((Tx.borrowMut h s).2).stateHeap.getD h.stateId .clean = .modified
      ∧ (∀ (k : Nat × Int) (db : DB),
          alookup ((Tx.borrowMut h s).2).state_map k = some h.stateId →
          Transaction.applyEntry (setBorrow (Tx.borrowMut h s).2 h.cellId .free) db
              (k, h.cellId)
            = (.ok (db.updateRow (s.cellHeap.getD h.cellId default).table.table_name
                  (s.cellHeap.getD h.cellId default).id
                  (s.cellHeap.getD h.cellId default).payload),
               [.updateRowC (s.cellHeap.getD h.cellId default).id
                  (s.cellHeap.getD h.cellId default).table.table_name
                  (s.cellHeap.getD h.cellId default).payload])) := by
  have hbm : Tx.borrowMut h s = (.panic, setStateCell s h.stateId .modified) := by
    simp only [Tx.borrowMut, if_neg hnr]
    rcases hc : ((setStateCell s h.stateId .modified).cellHeap.getD h.cellId default).borrow
      with _ | n | _
    · exact absurd hc hb
    · rfl
    · rfl
  have hlt : h.cellId < s.cellHeap.length := by
    by_contra hge
    exact hb (congrArg DataCell.borrow
      (getD_ge s.cellHeap h.cellId default (Nat.le_of_not_lt hge)))
  refine ⟨by rw [hbm], by rw [hbm]; exact getD_set_self _ _ _ _ hsid, ?_⟩
  intro k db hk
  rw [hbm] at hk ⊢
  have hk' : alookup s.state_map k = some h.stateId := hk
  have hcell2 : (setBorrow (setStateCell s h.stateId .modified) h.cellId .free).cellHeap.getD
      h.cellId default = { s.cellHeap.getD h.cellId default with borrow := .free } :=
    getD_set_self _ _ _ _ hlt
  have hstm : (setBorrow (setStateCell s h.stateId .modified) h.cellId .free).stateHeap.getD
      h.stateId .clean = .modified := getD_set_self _ _ _ _ hsid
  have hkS : alookup (setBorrow (setStateCell s h.stateId .modified) h.cellId .free).state_map
      k = some h.stateId := hk'
  simp only [Transaction.applyEntry, hcell2, hkS, hstm]
  rfl

/-- Witness for C10 at `sW2`: the single entry is `Clean` with a shared
borrow outstanding; `borrow_mut` panics yet leaves the state `Modified`. -/
theorem borrowMut_conflict_witness :
    ((sW2.cellHeap.getD 0 default).borrow ≠ .free)
      ∧ (Tx.borrowMut ⟨0, 1, 0⟩ sW2).1 = .panic
      ∧ ((Tx.borrowMut ⟨0, 1, 0⟩ sW2).2).stateHeap.getD 0 .clean = .modified :=
  ⟨by decide,
    (borrowMut_conflict sW2 ⟨0, 1, 0⟩ (by decide) (by decide) (by decide)).1,
    (borrowMut_conflict sW2 ⟨0, 1, 0⟩ (by decide) (by decide) (by decide)).2.1⟩

/-- Inserting the same key into two maps with equal key sequences keeps the
key sequences equal. -/
lemma ainsert_keys_congr (m₁ m₂ : List ((Nat × Int) × Nat)) (k : Nat × Int) (v₁ v₂ : Nat)
    (h : m₁.map Prod.fst = m₂.map Prod.fst) :
    (ainsert m₁ k v₁).map Prod.fst = (ainsert m₂ k v₂).map Prod.fst := by
  induction m₁ generalizing m₂ with
  | nil =>
      cases m₂ with
      | nil => simp [ainsert]
      | cons e tl => simp at h
  | cons e tl ih =>
      cases m₂ with
      | nil => simp at h
      | cons e₂ tl₂ =>
          simp only [List.map_cons, List.cons.injEq] at h
          obtain ⟨h1, h2⟩ := h
          by_cases hek : e.1 = k
          · have hek₂ : e₂.1 = k := by rw [← h1]; exact hek
            simp [ainsert, hek, hek₂, h2]
          · have hek₂ : ¬ e₂.1 = k := by rw [← h1]; exact hek
            simp [ainsert, hek, hek₂, h1, ih tl₂ h2]

lemma alookup_isSome_of_mem (m : List ((Nat × Int) × Nat)) (k : Nat × Int)
    (h : k ∈ m.map Prod.fst) : (alookup m k).isSome := by
  induction m with
  | nil => simp at h
  | cons e tl ih =>
      simp only [List.map_cons, List.mem_cons] at h
      by_cases hek : e.1 = k
      · simp [alookup, hek]
      · rcases h with h | h
        · exact absurd h.symm hek
        · simp only [alookup, if_neg hek]
          exact ih h

/-- The storage-read tail of `get` keeps the two identity maps' key
sequences equal. -/
lemma getFetch_keys (T : ObjType) (id : Int) (s1 : Transaction) (log : List StorageCall)
    (h : s1.cell_map.map Prod.fst = s1.state_map.map Prod.fst) :
    ((Transaction.getFetch T id s1 log).2.1).cell_map.map Prod.fst
      = ((Transaction.getFetch T id s1 log).2.1).state_map.map Prod.fst := by
  simp only [Transaction.getFetch]
  rcases hsel : s1.db.selectRow T.table.table_name id with _ | row
  · simp only [hsel]
    exact h
  · simp only [hsel]
    exact ainsert_keys_congr _ _ _ _ _ h

/-- Every step of use of a unit of work preserves equality of the identity
map's and the state map's key sequences. -/
lemma step_keys (s s' : Transaction) (hs : Step s s')
    (h : s.cell_map.map Prod.fst = s.state_map.map Prod.fst) :
    s'.cell_map.map Prod.fst = s'.state_map.map Prod.fst := by
  have hmaps : ∀ (T : ObjType),
      ((Transaction.ensure_table T s).1).cell_map.map Prod.fst
        = ((Transaction.ensure_table T s).1).state_map.map Prod.fst := by
    intro T
    rw [(ensure_table_heaps T s).2.2.1, (ensure_table_heaps T s).2.2.2.1]
    exact h
  cases hs with
  | createS T obj s =>
      exact ainsert_keys_congr _ _ _ _ _ (hmaps T)
  | getS T id s =>
      show ((Transaction.get T id s).2.1).cell_map.map Prod.fst
        = ((Transaction.get T id s).2.1).state_map.map Prod.fst
      simp only [Transaction.get]
      rcases hl : alookup ((Transaction.ensure_table T s).1).state_map (T.typeId, id)
        with _ | sid
      · simp only [hl]
        exact getFetch_keys T id _ _ (hmaps T)
      · simp only [hl]
        by_cases hrm : ((Transaction.ensure_table T s).1).stateHeap.getD sid .clean = .removed
        · simp only [if_pos hrm]
          exact hmaps T
        · simp only [if_neg hrm]
          rcases hcl : alookup ((Transaction.ensure_table T s).1).cell_map (T.typeId, id)
            with _ | cid
          · simp only [hcl]
            exact getFetch_keys T id _ _ (hmaps T)
          · simp only [hcl]
            exact hmaps T
  | borrowS hx s =>
      show ((Tx.borrow hx s).2).cell_map.map Prod.fst
        = ((Tx.borrow hx s).2).state_map.map Prod.fst
      simp only [Tx.borrow]
      by_cases hrm : s.stateHeap.getD hx.stateId .clean = .removed
      · simp only [if_pos hrm]
        exact h
      · simp only [if_neg hrm]
        rcases hc : (s.cellHeap.getD hx.cellId default).borrow with _ | n | _ <;> exact h
  | borrowMutS hx s =>
      show ((Tx.borrowMut hx s).2).cell_map.map Prod.fst
        = ((Tx.borrowMut hx s).2).state_map.map Prod.fst
      simp only [Tx.borrowMut]
      by_cases hrm : s.stateHeap.getD hx.stateId .clean = .removed
      · simp only [if_pos hrm]
        exact h
      · simp only [if_neg hrm]
        rcases hc : ((setStateCell s hx.stateId .modified).cellHeap.getD hx.cellId
          default).borrow with _ | n | _ <;> exact h
  | deleteS hx s =>
      show ((Tx.delete hx s).2).cell_map.map Prod.fst
        = ((Tx.delete hx s).2).state_map.map Prod.fst
      simp only [Tx.delete]
      rcases hc : (s.cellHeap.getD hx.cellId default).borrow with _ | n | _ <;> exact h
  | dropSharedS hx s =>
      show (Tx.dropShared hx s).cell_map.map Prod.fst
        = (Tx.dropShared hx s).state_map.map Prod.fst
      simp only [Tx.dropShared]
      rcases hc : (s.cellHeap.getD hx.cellId default).borrow with _ | n | _
      · exact h
      · cases n with
        | zero => exact h
        | succ m => exact h
      · exact h
  | dropMutS hx s =>
      show (Tx.dropMut hx s).cell_map.map Prod.fst
        = (Tx.dropMut hx s).state_map.map Prod.fst
      simp only [Tx.dropMut]
      rcases hc : (s.cellHeap.getD hx.cellId default).borrow with _ | n | _ <;> exact h

/-- C9: in every state reachable from a fresh unit of work by any sequence
of `create`, `get`, `borrow`, `borrow_mut`, `delete` and guard-drop
operations, the identity map and the mutation-state map hold exactly the
same key sequence, so the state lookup performed for each identity-map entry
during the commit flush succeeds. -/
theorem identity_maps_key_sync (s : Transaction) (hr : Reachable s) :
    s.cell_map.map Prod.fst = s.state_map.map Prod.fst
      ∧ ∀ k ∈ s.cell_map.map Prod.fst, (alookup s.state_map k).isSome := by
  obtain ⟨db, hrt⟩ := hr
  have hkeys : s.cell_map.map Prod.fst = s.state_map.map Prod.fst := by
    induction hrt with
    | refl => rfl
    | tail _ hstep ih => exact step_keys _ _ hstep ih
  refine ⟨hkeys, ?_⟩
  intro k hk
  rw [hkeys] at hk
  exact alookup_isSome_of_mem _ _ hk

/-- Witness for C9: the state reached from a fresh unit of work by one
`create` is reachable, and its two maps carry the same keys. -/
theorem identity_maps_key_sync_witness :
    Reachable ((Transaction.create T0 [] (Transaction.fresh db1)).2.1)
      ∧ ((Transaction.create T0 [] (Transaction.fresh db1)).2.1).cell_map.map Prod.fst
          = ((Transaction.create T0 [] (Transaction.fresh db1)).2.1).state_map.map Prod.fst :=
  ⟨⟨db1, Relation.ReflTransGen.tail Relation.ReflTransGen.refl
      (Step.createS T0 [] (Transaction.fresh db1))⟩,
    (identity_maps_key_sync _
      ⟨db1, Relation.ReflTransGen.tail Relation.ReflTransGen.refl
        (Step.createS T0 [] (Transaction.fresh db1))⟩).1⟩

/-- When the flush walk runs to completion without error or panic, its trace
is exactly `flushCalls` over the walked entries. -/
lemma tryApplyGo_ok_log (s : Transaction) (entries : List ((Nat × Int) × Nat)) :
    ∀ (db db' : DB) (log : List StorageCall),
      Transaction.tryApplyGo s entries db = (.ok (), db', log) →
      log = Transaction.flushCalls s entries := by
  induction entries with
  | nil =>
      intro db db' log heq
      simp only [Transaction.tryApplyGo, Prod.mk.injEq] at heq
      rw [← heq.2.2]
      rfl
  | cons e tl ih =>
      intro db db' log heq
      by_cases hbx : (s.cellHeap.getD e.2 default).borrow = .exclusive
      · have hae : Transaction.applyEntry s db e = (.panic, []) := by
          simp only [Transaction.applyEntry, if_pos hbx]
        simp only [Transaction.tryApplyGo, hae] at heq
        simp at heq
      · rcases hl : alookup s.state_map e.1 with _ | sid
        · have hae : Transaction.applyEntry s db e = (.panic, []) := by
            simp only [Transaction.applyEntry, if_neg hbx, hl]
          simp only [Transaction.tryApplyGo, hae] at heq
          simp at heq
        · have hes : Transaction.entryState s e.1 = some (s.stateHeap.getD sid .clean) := by
            simp [Transaction.entryState, hl]
          rcases hst : s.stateHeap.getD sid .clean with _ | _ | _
          · -- Clean: skip
            rw [hst] at hes
            have hae : Transaction.applyEntry s db e = (.ok db, []) := by
              simp only [Transaction.applyEntry, if_neg hbx, hl, hst]
            simp only [Transaction.tryApplyGo, hae, List.nil_append, Prod.mk.injEq] at heq
            obtain ⟨h1, h2, h3⟩ := heq
            have hrec : Transaction.tryApplyGo s tl db
                = (.ok (), (Transaction.tryApplyGo s tl db).2.1,
                    (Transaction.tryApplyGo s tl db).2.2) := by
              rw [← h1]
            have hlog := ih db _ _ hrec
            rw [← h3, hlog]
            simp [Transaction.flushCalls, hes]
          · -- Modified: update with the entry's current serialized form
            rw [hst] at hes
            have hae : Transaction.applyEntry s db e
                = (.ok (db.updateRow (s.cellHeap.getD e.2 default).table.table_name
                      (s.cellHeap.getD e.2 default).id (s.cellHeap.getD e.2 default).payload),
                   [.updateRowC (s.cellHeap.getD e.2 default).id
                      (s.cellHeap.getD e.2 default).table.table_name
                      (s.cellHeap.getD e.2 default).payload]) := by
              simp only [Transaction.applyEntry, if_neg hbx, hl, hst]
            simp only [Transaction.tryApplyGo, hae, Prod.mk.injEq] at heq
            obtain ⟨h1, h2, h3⟩ := heq
            have hrec : Transaction.tryApplyGo s tl
                (db.updateRow (s.cellHeap.getD e.2 default).table.table_name
                  (s.cellHeap.getD e.2 default).id (s.cellHeap.getD e.2 default).payload)
                = (.ok (),
                    (Transaction.tryApplyGo s tl
                      (db.updateRow (s.cellHeap.getD e.2 default).table.table_name
                        (s.cellHeap.getD e.2 default).id
                        (s.cellHeap.getD e.2 default).payload)).2.1,
                    (Transaction.tryApplyGo s tl
                      (db.updateRow (s.cellHeap.getD e.2 default).table.table_name
                        (s.cellHeap.getD e.2 default).id
                        (s.cellHeap.getD e.2 default).payload)).2.2) := by
              rw [← h1]
            have hlog := ih _ _ _ hrec
            rw [← h3, hlog]
            simp [Transaction.flushCalls, hes]
          · -- Removed: delete
            rw [hst] at hes
            rcases hdel : db.deleteRow (s.cellHeap.getD e.2 default).table.table_name
                (s.cellHeap.getD e.2 default).id with _ | db₀
            · have hae : Transaction.applyEntry s db e
                  = (.err (.notFound (s.cellHeap.getD e.2 default).id
                        (s.cellHeap.getD e.2 default).table.type_name),
                     [.deleteRowC (s.cellHeap.getD e.2 default).id
                        (s.cellHeap.getD e.2 default).table.table_name]) := by
                simp only [Transaction.applyEntry, if_neg hbx, hl, hst, hdel]
              simp only [Transaction.tryApplyGo, hae] at heq
              simp at heq
            · have hae : Transaction.applyEntry s db e
                  = (.ok db₀,
                     [.deleteRowC (s.cellHeap.getD e.2 default).id
                        (s.cellHeap.getD e.2 default).table.table_name]) := by
                simp only [Transaction.applyEntry, if_neg hbx, hl, hst, hdel]
              simp only [Transaction.tryApplyGo, hae, Prod.mk.injEq] at heq
              obtain ⟨h1, h2, h3⟩ := heq
              have hrec : Transaction.tryApplyGo s tl db₀
                  = (.ok (), (Transaction.tryApplyGo s tl db₀).2.1,
                      (Transaction.tryApplyGo s tl db₀).2.2) := by
                rw [← h1]
              have hlog := ih db₀ _ _ hrec
              rw [← h3, hlog]
              simp [Transaction.flushCalls, hes]

/-- Counting facts about `flushCalls`: update calls count the `Modified`
entries, delete calls the `Removed` ones, nothing else is emitted (so the
trace's length is their sum and it contains no commit), and every update
call carries its entry's current serialized form. -/
lemma flushCalls_stats (s : Transaction) (entries : List ((Nat × Int) × Nat)) :
    ((Transaction.flushCalls s entries).filter StorageCall.isUpdate).length
        = (entries.filter (fun e => Transaction.entryState s e.1 = some .modified)).length
      ∧ ((Transaction.flushCalls s entries).filter StorageCall.isDelete).length
        = (entries.filter (fun e => Transaction.entryState s e.1 = some .removed)).length
      ∧ (Transaction.flushCalls s entries).length
        = (entries.filter (fun e => Transaction.entryState s e.1 = some .modified)).length
          + (entries.filter (fun e => Transaction.entryState s e.1 = some .removed)).length
      ∧ (∀ c ∈ Transaction.flushCalls s entries, StorageCall.isCommit c = false)
      ∧ (∀ c ∈ Transaction.flushCalls s entries, StorageCall.isUpdate c = true →
          ∃ e ∈ entries, Transaction.entryState s e.1 = some .modified
            ∧ c = .updateRowC (s.cellHeap.getD e.2 default).id
                (s.cellHeap.getD e.2 default).table.table_name
                (s.cellHeap.getD e.2 default).payload) := by
  induction entries with
  | nil => simp [Transaction.flushCalls]
  | cons e tl ih =>
      obtain ⟨i1, i2, i3, i4, i5⟩ := ih
      rcases hes : Transaction.entryState s e.1 with _ | (_ | _ | _)
      · refine ⟨?_, ?_, ?_, ?_, ?_⟩
        · simp [Transaction.flushCalls, hes, i1, List.filter_cons]
        · simp [Transaction.flushCalls, hes, i2, List.filter_cons]
        · simp [Transaction.flushCalls, hes, i3, List.filter_cons]
        · intro c hc
          simp only [Transaction.flushCalls, hes, List.nil_append] at hc
          exact i4 c hc
        · intro c hc hup
          simp only [Transaction.flushCalls, hes, List.nil_append] at hc
          obtain ⟨e', he', hst', hform⟩ := i5 c hc hup
          exact ⟨e', List.mem_cons_of_mem _ he', hst', hform⟩
      · refine ⟨?_, ?_, ?_, ?_, ?_⟩
        · simp [Transaction.flushCalls, hes, i1, List.filter_cons]
        · simp [Transaction.flushCalls, hes, i2, List.filter_cons]
        · simp [Transaction.flushCalls, hes, i3, List.filter_cons]
        · intro c hc
          simp only [Transaction.flushCalls, hes, List.nil_append] at hc
          exact i4 c hc
        · intro c hc hup
          simp only [Transaction.flushCalls, hes, List.nil_append] at hc
          obtain ⟨e', he', hst', hform⟩ := i5 c hc hup
          exact ⟨e', List.mem_cons_of_mem _ he', hst', hform⟩
      · refine ⟨?_, ?_, ?_, ?_, ?_⟩
        · simp [Transaction.flushCalls, hes, i1, List.filter_cons, StorageCall.isUpdate]
        · simp [Transaction.flushCalls, hes, i2, List.filter_cons, StorageCall.isDelete]
        · simp only [Transaction.flushCalls, hes]
          simp [List.filter_cons, hes, i3, StorageCall.isUpdate]
          omega
        · intro c hc
          simp only [Transaction.flushCalls, hes, List.singleton_append,
            List.mem_cons] at hc
          rcases hc with rfl | hc
          · rfl
          · exact i4 c hc
        · intro c hc hup
          simp only [Transaction.flushCalls, hes, List.singleton_append,
            List.mem_cons] at hc
          rcases hc with rfl | hc
          · exact ⟨e, List.mem_cons_self _ _, hes, rfl⟩
          · obtain ⟨e', he', hst', hform⟩ := i5 c hc hup
            exact ⟨e', List.mem_cons_of_mem _ he', hst', hform⟩
      · refine ⟨?_, ?_, ?_, ?_, ?_⟩
        · simp [Transaction.flushCalls, hes, i1, List.filter_cons, StorageCall.isUpdate]
        · simp [Transaction.flushCalls, hes, i2, List.filter_cons, StorageCall.isDelete]
        · simp only [Transaction.flushCalls, hes]
          simp [List.filter_cons, hes, i3, StorageCall.isDelete]
          omega
        · intro c hc
          simp only [Transaction.flushCalls, hes, List.singleton_append,
            List.mem_cons] at hc
          rcases hc with rfl | hc
          · rfl
          · exact i4 c hc
        · intro c hc hup
          simp only [Transaction.flushCalls, hes, List.singleton_append,
            List.mem_cons] at hc
          rcases hc with rfl | hc
          · exact absurd hup (by simp [StorageCall.isUpdate])
          · obtain ⟨e', he', hst', hform⟩ := i5 c hc hup
            exact ⟨e', List.mem_cons_of_mem _ he', hst', hform⟩

/-- C2: when `commit` returns successfully, its storage trace consists of
exactly one `update_row` per `Modified` entry (carrying the entry's current
serialized form), exactly one `delete_row` per `Removed` entry, no statement
at all for `Clean` entries (the trace length is updates + deletes + the
single commit), and exactly one `commit` on the underlying storage
transaction, placed after every flush call. -/
theorem commit_flush_counts (s : Transaction) (s' : Transaction) (log : List StorageCall)
    (hc : Transaction.commit s = (.ok (), s', log)) :
    (log.filter StorageCall.isUpdate).length = s.countState .modified
      ∧ (log.filter StorageCall.isDelete).length = s.countState .removed
      ∧ (log.filter StorageCall.isCommit).length = 1
      ∧ log.length = s.countState .modified + s.countState .removed + 1
      ∧ log.getLast? = some .commitC
      ∧ (∀ c ∈ log, StorageCall.isUpdate c = true →
          ∃ e ∈ s.cell_map, Transaction.entryState s e.1 = some .modified
            ∧ c = .updateRowC (s.cellHeap.getD e.2 default).id
                (s.cellHeap.getD e.2 default).table.table_name
                (s.cellHeap.getD e.2 default).payload) := by
  cases hta : (Transaction.try_apply s).1 with
  | err er =>
      simp only [Transaction.commit, hta] at hc
      simp at hc
  | panic =>
      simp only [Transaction.commit, hta] at hc
      simp at hc
  | ok a =>
      cases a
      simp only [Transaction.commit, hta, Prod.mk.injEq] at hc
      obtain ⟨-, h2, h3⟩ := hc
      have hrec : Transaction.try_apply s
          = (.ok (), (Transaction.try_apply s).2.1, (Transaction.try_apply s).2.2) := by
        rw [← hta]
      have hflush : (Transaction.try_apply s).2.2 = Transaction.flushCalls s s.cell_map :=
        tryApplyGo_ok_log s s.cell_map s.db _ _ hrec
      rw [← h3, hflush]
      obtain ⟨f1, f2, f3, f4, f5⟩ := flushCalls_stats s s.cell_map
      have hnc : (Transaction.flushCalls s s.cell_map).filter StorageCall.isCommit = [] := by
        rw [List.filter_eq_nil_iff]
        intro c hcmem
        simp [f4 c hcmem]
      refine ⟨?_, ?_, ?_, ?_, ?_, ?_⟩
      · simp [List.filter_append, StorageCall.isUpdate, f1, Transaction.countState]
      · simp [List.filter_append, StorageCall.isDelete, f2, Transaction.countState]
      · simp [List.filter_append, StorageCall.isCommit, hnc]
      · simp only [List.length_append, List.length_singleton, f3, Transaction.countState]
      · exact List.getLast?_concat _
      · intro c hcmem hup
        rcases List.mem_append.mp hcmem with hcmem | hcmem
        · exact f5 c hcmem hup
        · rcases List.mem_singleton.mp hcmem with rfl
          exact absurd hup (by simp [StorageCall.isUpdate])

/-- Witness for C2 at the concrete state `sW` (one `Modified`, one `Removed`,
one `Clean` entry): `commit` succeeds with trace
`[update, delete, commit]` and the counted statistics hold. -/
theorem commit_flush_counts_witness :
    Transaction.commit sW
        = (.ok (), (Transaction.commit sW).2.1,
            [.updateRowC 1 "t" [], .deleteRowC 2 "t", .commitC])
      ∧ (([.updateRowC 1 "t" [], .deleteRowC 2 "t",
            .commitC] : List StorageCall).filter StorageCall.isUpdate).length
          = sW.countState .modified :=
  ⟨rfl,
    (commit_flush_counts sW (Transaction.commit sW).2.1
      [.updateRowC 1 "t" [], .deleteRowC 2 "t", .commitC] rfl).1⟩

end Orm
